import Mathlib

/-!
Verification of the workflow / failover-executor subsystem of the
bun-ai-server-workflows repository.  Each definition is a shallow embedding of
the corresponding TypeScript function; theorems settle the frozen claims.
-/

namespace BunAI

/- ===================== String utilities ===================== -/

/-- Substring test on character lists: the pattern occurs as a contiguous
sublist.  Models JavaScript String.prototype.includes. -/
def hasSubAux (pat : List Char) : List Char → Bool
  | [] => pat.isEmpty
  | c :: t => pat.isPrefixOf (c :: t) || hasSubAux pat t

/-- JavaScript s.includes(pat). -/
def includesStr (hay pat : String) : Bool := hasSubAux pat.data hay.data

/-- JavaScript String.prototype.toLowerCase, on the ASCII range (all the
classifier's keywords are ASCII). -/
def jsToLowerCase (s : String) : String := ⟨s.data.map Char.toLower⟩

/- ===================== Error taxonomy (src/lib/errors.ts) ===================== -/

/-- The AIErrorCode string union of src/lib/errors.ts. -/
inductive AIErrorCode
  | RATE_LIMITED
  | AUTH_FAILED
  | MODEL_UNAVAILABLE
  | TIMEOUT
  | INVALID_REQUEST
  | SERVICE_ERROR
  | NETWORK_ERROR
deriving DecidableEq, BEq, Repr

/-- AIServiceError of src/lib/errors.ts restricted to the fields the claims
are about (message, serviceName, code); the cause reference is dropped. -/
structure AIServiceError where
  message : String
  serviceName : String
  code : AIErrorCode
deriving DecidableEq, Repr

/-- classifyError of src/lib/errors.ts lines 31-91.  The source takes an
unknown error and first extracts its message; the model takes the message
directly. -/
def classifyError (message : String) (serviceName : String) : AIServiceError :=
  let lowerMessage := jsToLowerCase message
  if includesStr lowerMessage "rate" || includesStr lowerMessage "429" then
    ⟨"Límite de peticiones excedido", serviceName, .RATE_LIMITED⟩
  else if includesStr lowerMessage "auth" || includesStr lowerMessage "401" ||
      includesStr lowerMessage "api key" then
    ⟨"Error de autenticación", serviceName, .AUTH_FAILED⟩
  else if includesStr lowerMessage "model" || includesStr lowerMessage "not found" then
    ⟨"Modelo no disponible", serviceName, .MODEL_UNAVAILABLE⟩
  else if includesStr lowerMessage "timeout" || includesStr lowerMessage "timed out" then
    ⟨"Tiempo de espera agotado", serviceName, .TIMEOUT⟩
  else if includesStr lowerMessage "invalid" || includesStr lowerMessage "400" then
    ⟨"Solicitud inválida", serviceName, .INVALID_REQUEST⟩
  else if includesStr lowerMessage "network" || includesStr lowerMessage "fetch" ||
      includesStr lowerMessage "econnrefused" then
    ⟨"Error de red", serviceName, .NETWORK_ERROR⟩
  else
    ⟨message, serviceName, .SERVICE_ERROR⟩

/-- isRetryable of src/lib/errors.ts lines 94-102. -/
def isRetryable (code : AIErrorCode) : Bool :=
  [AIErrorCode.RATE_LIMITED, .TIMEOUT, .SERVICE_ERROR, .NETWORK_ERROR,
    .MODEL_UNAVAILABLE].contains code

/- Spec-side rendering of the classification for the refinement claim C6:
an ordered table of keyword buckets, first match wins. -/

/-- The keyword buckets of the spec's classification table, in the spec's
order, with the network bucket as the source has it (econnrefused). -/
def keywordBuckets : List (List String × AIErrorCode) :=
  [ (["rate", "429"], .RATE_LIMITED),
    (["auth", "401", "api key"], .AUTH_FAILED),
    (["model", "not found"], .MODEL_UNAVAILABLE),
    (["timeout", "timed out"], .TIMEOUT),
    (["invalid", "400"], .INVALID_REQUEST),
    (["network", "fetch", "econnrefused"], .NETWORK_ERROR) ]

/-- First matching bucket of an ordered table; SERVICE_ERROR when none match. -/
def firstBucket (lowerMessage : String) : List (List String × AIErrorCode) → AIErrorCode
  | [] => .SERVICE_ERROR
  | (kws, code) :: rest =>
    if kws.any (includesStr lowerMessage) then code else firstBucket lowerMessage rest

/-- Spec-side classifier: lowercase the message, take the first matching
bucket of the table. -/
def bucketClassify (message : String) : AIErrorCode :=
  firstBucket (jsToLowerCase message) keywordBuckets

/- ===================== Failover executor (src/lib/executor.ts) ===================== -/

/-- Result of one invocation of a provider's category-specific operation:
the call resolves with a value or rejects with an error message. -/
inductive SvcRes
  | ok (v : String)
  | err (msg : String)
deriving DecidableEq, Repr

/-- A registered provider: its name and its behaviour, indexed by the
attempt number at which it is invoked (so retries of the same provider may
behave differently, as an external service can). -/
structure Svc where
  name : String
  beh : Nat → SvcRes

/-- One entry of the invocation log of a run of execute. -/
structure Invocation where
  service : String
  attempt : Nat
  res : SvcRes
deriving DecidableEq, Repr

/-- Observable outcome of BaseServiceExecutor.execute: the returned value or
thrown error, together with the invocation log and the number of skipped
loop iterations. -/
structure ExecResult where
  outcome : Except AIServiceError (String × String)
  invoked : List Invocation
  skips : Nat

/-- The synthesized all-attempts-exhausted error thrown after the loop
(src/lib/executor.ts lines 324-329). -/
def allFailedError (categoryName : String) (maxRetries : Nat)
    (errors : List AIServiceError) : AIServiceError :=
  ⟨"Todos los servicios de " ++ categoryName ++ " fallaron después de " ++
      toString maxRetries ++ " intentos",
    String.intercalate ", " (errors.map (fun e => e.serviceName)),
    .SERVICE_ERROR⟩

/-- Set.add on the attempted-services set: append the name if absent. -/
def insertName (attempted : List String) (n : String) : List String :=
  if attempted.contains n then attempted else attempted ++ [n]

/-- The attempt loop of BaseServiceExecutor.execute (src/lib/executor.ts
lines 288-330).  fuel counts the remaining iterations of the
for-loop (the JS continue on a skipped provider runs the update expression,
so a skip also spends one unit of fuel); idx is this.currentIndex;
attempted, errors, invoked and skips accumulate the run's state. -/
def executeAux (categoryName : String) (services : List Svc) (maxRetries : Nat) :
    Nat → Nat → List String → List AIServiceError → List Invocation → Nat → ExecResult
  | 0, _, _, errors, invoked, skips =>
    ⟨.error (allFailedError categoryName maxRetries errors), invoked, skips⟩
  | fuel + 1, idx, attempted, errors, invoked, skips =>
    match services[idx]? with
    | none =>
      -- unreachable in the source: currentIndex is kept in range by the
      -- modulo update and the constructor rejects an empty service list
      ⟨.error (allFailedError categoryName maxRetries errors), invoked, skips⟩
    | some service =>
      let attempt := maxRetries - (fuel + 1)
      let nextIdx := (idx + 1) % services.length
      if attempted.contains service.name ∧ attempted.length < services.length then
        executeAux categoryName services maxRetries fuel nextIdx attempted errors
          invoked (skips + 1)
      else
        let attempted' := insertName attempted service.name
        match service.beh attempt with
        | .ok v =>
          ⟨.ok (v, service.name), invoked ++ [⟨service.name, attempt, .ok v⟩], skips⟩
        | .err m =>
          let e := classifyError m service.name
          if isRetryable e.code then
            executeAux categoryName services maxRetries fuel nextIdx attempted'
              (errors ++ [e]) (invoked ++ [⟨service.name, attempt, .err m⟩]) skips
          else
            ⟨.error e, invoked ++ [⟨service.name, attempt, .err m⟩], skips⟩

/-- BaseServiceExecutor.execute: run the attempt loop from a rotation cursor
startIdx with fresh attempted/error accumulators. -/
def execute (categoryName : String) (services : List Svc) (maxRetries startIdx : Nat) :
    ExecResult :=
  executeAux categoryName services maxRetries maxRetries startIdx [] [] [] 0

/-- A provider that always rejects with "boom" (classified SERVICE_ERROR,
hence retryable). -/
def boomSvc (n : String) : Svc := ⟨n, fun _ => .err "boom"⟩

/-- Three registered providers of which two share a name, so that the
already-attempted skip branch is reachable. -/
def dupServices : List Svc := [boomSvc "X", boomSvc "X", boomSvc "Y"]

/- ===================== Provider registry (src/lib/registry.ts) ===================== -/

/-- ServiceRegistry state: the per-category ordered provider lists and the
per-category rotation cursors (both JS Maps keyed by the category name). -/
structure ServiceRegistry where
  services : List (String × List Svc)
  currentIndex : List (String × Nat)

/-- Assoc-list lookup modelling JS Map.get. -/
def mapGet {α : Type} : List (String × α) → String → Option α
  | [], _ => none
  | (k, v) :: rest, key => if k = key then some v else mapGet rest key

/-- Assoc-list update modelling JS Map.set. -/
def mapSet {α : Type} : List (String × α) → String → α → List (String × α)
  | [], key, v => [(key, v)]
  | (k, w) :: rest, key, v =>
    if k = key then (k, v) :: rest else (k, w) :: mapSet rest key v

/-- ServiceRegistry.getNext (src/lib/registry.ts lines 48-64): round-robin
pick, SERVICE_ERROR when the category has no registrations.  The
out-of-range cursor branch is unreachable in the source: the cursor is kept
below the list length by the modulo update. -/
def getNext (reg : ServiceRegistry) (category : String) :
    Except AIServiceError (Svc × ServiceRegistry) :=
  match mapGet reg.services category with
  | none =>
    .error ⟨"No hay servicios registrados para la categoría: " ++ category,
      "registry", .SERVICE_ERROR⟩
  | some categoryServices =>
    if categoryServices.length = 0 then
      .error ⟨"No hay servicios registrados para la categoría: " ++ category,
        "registry", .SERVICE_ERROR⟩
    else
      let index := (mapGet reg.currentIndex category).getD 0
      match categoryServices[index]? with
      | some service =>
        .ok (service,
          ⟨reg.services,
            mapSet reg.currentIndex category ((index + 1) % categoryServices.length)⟩)
      | none =>
        .error ⟨"No hay servicios registrados para la categoría: " ++ category,
          "registry", .SERVICE_ERROR⟩

/-- ServiceRegistry.getAll (src/lib/registry.ts lines 66-68): the ordered
list, possibly empty. -/
def getAll (reg : ServiceRegistry) (category : String) : List Svc :=
  (mapGet reg.services category).getD []

/-- The BaseServiceExecutor constructor guard (src/lib/executor.ts lines
259-269): an empty service list is rejected with an INVALID_REQUEST before
any provider can be invoked; otherwise the executor holds the list. -/
def mkExecutorCheck (ctorName : String) (services : List Svc) :
    Except AIServiceError (List Svc) :=
  if services.length = 0 then
    .error ⟨ctorName ++ " requiere al menos un servicio", "config", .INVALID_REQUEST⟩
  else
    .ok services

/- ===================== Workflow data model (src/workflows/types.ts) ===================== -/

/-- WorkflowStatusType string union. -/
inductive WfState
  | pending
  | queued
  | running
  | completed
  | failed
deriving DecidableEq, BEq, Repr

/-- StepStatus.status string union. -/
inductive StepState
  | pending
  | running
  | completed
  | failed
  | skipped
deriving DecidableEq, BEq, Repr

/-- WorkflowError of src/workflows/types.ts.  The code field is a string in
the source whose values are always AIErrorCode members or undefined. -/
structure WfError where
  message : String
  code : Option AIErrorCode := none
  step : Option Nat := none
  service : Option String := none
deriving DecidableEq, Repr

/-- StepStatus of src/workflows/types.ts; step results are modelled as
opaque strings. -/
structure StepStatusR where
  index : Nat
  name : String
  category : String
  status : StepState
  service : Option String := none
  result : Option String := none
  error : Option WfError := none
  startedAt : Option Nat := none
  completedAt : Option Nat := none
  durationMs : Option Nat := none
deriving DecidableEq, Repr

/-- WorkflowStatus of src/workflows/types.ts; input/result are modelled as
opaque strings. -/
structure WorkflowStatusR where
  id : String
  name : String
  status : WfState
  currentStep : Nat
  totalSteps : Nat
  steps : List StepStatusR
  input : String
  result : Option String := none
  error : Option WfError := none
  createdAt : Nat
  updatedAt : Nat
  completedAt : Option Nat := none
deriving DecidableEq, Repr

/-- A JS thrown value as the driver sees it: a plain Error or an
AIServiceError (the only classified error class). -/
inductive JsError
  | plain (message : String)
  | ai (e : AIServiceError)
deriving DecidableEq, Repr

/-- error.message. -/
def JsError.message : JsError → String
  | .plain m => m
  | .ai e => e.message

/-- The driver's code extraction: err instanceof AIServiceError ? err.code :
undefined. -/
def JsError.codeOf : JsError → Option AIErrorCode
  | .plain _ => none
  | .ai e => some e.code

/-- The driver's service extraction: err instanceof AIServiceError ?
err.serviceName : undefined. -/
def JsError.serviceOf : JsError → Option String
  | .plain _ => none
  | .ai e => some e.serviceName

/- ===================== State manager (src/workflows/state.ts) ===================== -/

/-- A partial WorkflowStatus as passed to update: a present outer layer means
the field occurs in the update object. -/
structure StatusPatch where
  status : Option WfState := none
  currentStep : Option Nat := none
  steps : Option (List StepStatusR) := none
  result : Option (Option String) := none
  error : Option (Option WfError) := none
  completedAt : Option (Option Nat) := none
deriving DecidableEq, Repr

/-- The JS spread merge of MemoryStateManager.update lines 64-69:
fields present in the patch win, updatedAt is stamped. -/
def applyPatch (w : WorkflowStatusR) (p : StatusPatch) (now : Nat) : WorkflowStatusR :=
  { w with
    status := p.status.getD w.status
    currentStep := p.currentStep.getD w.currentStep
    steps := p.steps.getD w.steps
    result := p.result.getD w.result
    error := p.error.getD w.error
    completedAt := p.completedAt.getD w.completedAt
    updatedAt := now }

/-- The in-memory store: a JS Map from workflow id to status record. -/
abbrev Store := List (String × WorkflowStatusR)

/-- Map.get. -/
def storeGet : Store → String → Option WorkflowStatusR
  | [], _ => none
  | (k, v) :: rest, id => if k = id then some v else storeGet rest id

/-- Map.set. -/
def storeSet : Store → String → WorkflowStatusR → Store
  | [], id, w => [(id, w)]
  | (k, v) :: rest, id, w =>
    if k = id then (k, w) :: rest else (k, v) :: storeSet rest id w

/-- MemoryStateManager.create (line 56-58). -/
def memCreate (s : Store) (st : WorkflowStatusR) : Store := storeSet s st.id st

/-- MemoryStateManager.update (lines 64-69): merge the partial over the
record when present, stamping updatedAt; no-op when the id is absent.  No
guard distinguishes terminal records. -/
def memUpdate (s : Store) (id : String) (p : StatusPatch) (now : Nat) : Store :=
  match storeGet s id with
  | none => s
  | some cur => storeSet s id (applyPatch cur p now)

/-- A partial StepStatus as passed to WorkflowExecutor.updateStepStatus. -/
structure StepPatch where
  status : Option StepState := none
  service : Option String := none
  result : Option String := none
  error : Option WfError := none
  startedAt : Option Nat := none
  completedAt : Option Nat := none
  durationMs : Option Nat := none
deriving DecidableEq, Repr

/-- A present patch field wins over the current optional field. -/
def mergeOpt {α : Type} (patch cur : Option α) : Option α :=
  match patch with
  | some v => some v
  | none => cur

/-- The step-level spread merge of updateStepStatus. -/
def applyStepPatch (st : StepStatusR) (p : StepPatch) : StepStatusR :=
  { st with
    status := p.status.getD st.status
    service := mergeOpt p.service st.service
    result := mergeOpt p.result st.result
    error := mergeOpt p.error st.error
    startedAt := mergeOpt p.startedAt st.startedAt
    completedAt := mergeOpt p.completedAt st.completedAt
    durationMs := mergeOpt p.durationMs st.durationMs }

/-- WorkflowExecutor.updateStepStatus (src/unnamed/part_003 lines 419-429):
read the record, merge the patch into steps[stepIndex] when both exist, and
write the steps array back through the state manager's update.  No guard
distinguishes terminal records. -/
def updateStepStatus (s : Store) (workflowId : String) (stepIndex : Nat)
    (p : StepPatch) (now : Nat) : Store :=
  match storeGet s workflowId with
  | none => s
  | some status =>
    match status.steps[stepIndex]? with
    | none => s
    | some entry =>
      memUpdate s workflowId
        { steps := some (status.steps.set stepIndex (applyStepPatch entry p)) } now

/- ===================== Submit (src/unnamed/part_003 lines 45-95) ===================== -/

/-- A workflow step definition restricted to the fields submit reads. -/
structure StepDef where
  name : String
  category : String
deriving DecidableEq, Repr

/-- A workflow definition restricted to the fields submit reads. -/
structure WorkflowDefinitionR where
  name : String
  steps : List StepDef
deriving DecidableEq, Repr

/-- definition.steps.map((step, index) => ({index, name, category,
status: pending})) of submit. -/
def initSteps : List StepDef → Nat → List StepStatusR
  | [], _ => []
  | d :: rest, i =>
    { index := i, name := d.name, category := d.category, status := .pending } ::
      initSteps rest (i + 1)

/-- The WorkflowStatus record submit constructs and persists. -/
def submitStatus (defn : WorkflowDefinitionR) (id : String) (now : Nat)
    (input : String) : WorkflowStatusR :=
  { id := id
    name := defn.name
    status := .pending
    currentStep := 0
    totalSteps := defn.steps.length
    steps := initSteps defn.steps 0
    input := input
    createdAt := now
    updatedAt := now }

/- ===================== Transformers (src/workflows/transformers.ts) ===================== -/

/-- The step-result context the transformers read: results by step index and
the current step index. -/
structure Ctx where
  results : List (Nat × String)
  currentStep : Nat

/-- context.previousResult(): undefined at step 0, else results.get(i-1). -/
def previousResult (c : Ctx) : Option String :=
  if c.currentStep = 0 then none
  else (c.results.filter (fun r => r.1 == c.currentStep - 1)).head?.map Prod.snd

/-- JavaScript truthiness of a string-or-undefined: undefined and "" are
falsy. -/
def jsFalsyStr : Option String → Bool
  | none => true
  | some s => s = ""

/-- StepInputMap image input. -/
structure ImageInputT where
  prompt : String
deriving DecidableEq, Repr

/-- StepInputMap audio input. -/
structure AudioInputT where
  input : String
deriving DecidableEq, Repr

/-- previousTextToImageInput (src/workflows/transformers.ts lines 86-95):
the if (!text) guard throws on a falsy previous result. -/
def previousTextToImageInput (c : Ctx) : Except String ImageInputT :=
  let text := previousResult c
  if jsFalsyStr text then
    .error "No hay resultado de texto previo disponible para generación de imagen"
  else
    .ok ⟨text.getD ""⟩

/-- previousTextToAudioInput (src/workflows/transformers.ts lines 117-126). -/
def previousTextToAudioInput (c : Ctx) : Except String AudioInputT :=
  let text := previousResult c
  if jsFalsyStr text then
    .error "No hay resultado de texto previo disponible para generación de audio"
  else
    .ok ⟨text.getD ""⟩

/- ===================== list (src/workflows/state.ts) ===================== -/

/-- Options of the state manager's list. -/
structure ListOptions where
  status : Option WfState := none
  limit : Option Int := none

/-- The createdAt-descending comparison the sort uses. -/
def createdDesc (a b : WorkflowStatusR) : Prop := b.createdAt ≤ a.createdAt

instance : DecidableRel createdDesc :=
  fun a b => inferInstanceAs (Decidable (b.createdAt ≤ a.createdAt))

instance : IsTotal WorkflowStatusR createdDesc :=
  ⟨fun a b => Or.symm (Nat.le_total a.createdAt b.createdAt)⟩

instance : IsTrans WorkflowStatusR createdDesc :=
  ⟨fun _ _ _ h1 h2 => Nat.le_trans h2 h1⟩

/-- MemoryStateManager.list (src/workflows/state.ts lines 116-133): filter by
status when provided, stable-sort by createdAt descending, and truncate only
when options.limit is truthy AND > 0 (so 0 and negative limits skip the
slice). -/
def memList (s : Store) (options : ListOptions) : List WorkflowStatusR :=
  let workflows := s.map Prod.snd
  let workflows :=
    match options.status with
    | some st => workflows.filter (fun w => w.status == st)
    | none => workflows
  let workflows := List.insertionSort createdDesc workflows
  match options.limit with
  | some l => if l ≠ 0 ∧ 0 < l then workflows.take l.toNat else workflows
  | none => workflows

/-- The matching multiset: records surviving the status filter. -/
def matchingRecords (s : Store) (filt : Option WfState) : List WorkflowStatusR :=
  match filt with
  | some st => (s.map Prod.snd).filter (fun w => w.status == st)
  | none => s.map Prod.snd

/-- The sort-and-truncate tail of RedisStateManager.list (src/workflows/state.ts
lines 343-351), applied to the fetched-and-filtered records; the Redis fetch
itself is an I/O concern. -/
def redisListPost (workflows : List WorkflowStatusR) (options : ListOptions) :
    List WorkflowStatusR :=
  let ws := List.insertionSort createdDesc workflows
  match options.limit with
  | some l => if l ≠ 0 ∧ 0 < l then ws.take l.toNat else ws
  | none => ws

/- ===================== Workflow driver traces (src/unnamed/part_003) ===================== -/

/-- How one step of a run behaves: its skipIf fires, its executeStep
resolves with (result, service), or its executeStep rejects (a classified
provider error or a plain step-timeout Error). -/
inductive StepBeh
  | skip
  | ok (result service : String)
  | err (e : JsError)
deriving DecidableEq, Repr

/-- WorkflowEventType of src/workflows/types.ts. -/
inductive EventType
  | workflowQueued
  | workflowStarted
  | workflowComplete
  | workflowFailed
  | stepStarted
  | stepComplete
  | stepFailed
  | stepSkipped
deriving DecidableEq, Repr

/-- An emitted event restricted to the data fields the claims inspect. -/
structure Event where
  type : EventType
  step : Option Nat := none
  name : Option String := none
  error : Option WfError := none
  result : Option String := none
  service : Option String := none
deriving DecidableEq, Repr

/-- One observable action of the driver: a state-manager update, an
updateStepStatus write, or an event emission. -/
inductive DriverAction
  | update (p : StatusPatch)
  | stepUpdate (i : Nat) (p : StepPatch)
  | emit (e : Event)
deriving DecidableEq, Repr

/-- The store writes and event emissions of the executeSteps loop
(src/unnamed/part_003 lines 239-338) from step index i on, each action
tagged with the value of context.currentStep while it runs.  Date.now() is
modelled by the frozen clock now (so durationMs is 0).  A skipped step
writes and emits skipped and the loop continues; a successful step writes
running and completed with their events; a failing step writes running and
failed with their events and the loop rethrows, so nothing follows. -/
def stepActions (now : Nat) : List (StepDef × StepBeh) → Nat → List (Nat × DriverAction)
  | [], _ => []
  | (d, .skip) :: rest, i =>
    (i, .stepUpdate i { status := some .skipped }) ::
    (i, .emit { type := .stepSkipped, step := some i, name := some d.name }) ::
    stepActions now rest (i + 1)
  | (d, .ok r s) :: rest, i =>
    (i, .update { currentStep := some i }) ::
    (i, .stepUpdate i { status := some .running, startedAt := some now }) ::
    (i, .emit { type := .stepStarted, step := some i, name := some d.name }) ::
    (i, .stepUpdate i
      { status := some .completed, service := some s, result := some r,
        completedAt := some now, durationMs := some (now - now) }) ::
    (i, .emit
      { type := .stepComplete, step := some i, name := some d.name,
        service := some s, result := some r }) ::
    stepActions now rest (i + 1)
  | (d, .err e) :: _, i =>
    [(i, .update { currentStep := some i }),
     (i, .stepUpdate i { status := some .running, startedAt := some now }),
     (i, .emit { type := .stepStarted, step := some i, name := some d.name }),
     (i, .stepUpdate i
       { status := some .failed,
         error := some { message := e.message, code := e.codeOf, service := e.serviceOf },
         completedAt := some now }),
     (i, .emit
       { type := .stepFailed, step := some i, name := some d.name,
         error := some { message := e.message, code := e.codeOf } })]

/-- The error the loop rethrows, if any: the first err step's error. -/
def stepsThrown : List (StepDef × StepBeh) → Option JsError
  | [] => none
  | (_, .err e) :: _ => some e
  | (_, .skip) :: rest => stepsThrown rest
  | (_, .ok _ _) :: rest => stepsThrown rest

/-- context.currentStep when executeSteps returns or throws, given the next
iteration index i: the throwing step's index, else the last index entered
(0 when no iteration ran). -/
def curStepEnd : List (StepDef × StepBeh) → Nat → Nat
  | [], i => if i = 0 then 0 else i - 1
  | (_, .err _) :: _, i => i
  | (_, .skip) :: rest, i => curStepEnd rest (i + 1)
  | (_, .ok _ _) :: rest, i => curStepEnd rest (i + 1)

/-- results.get(definition.steps.length - 1): the last step's stored result,
absent when the last step was skipped or there are no steps. -/
def finalResult (steps : List (StepDef × StepBeh)) : Option String :=
  match steps.getLast? with
  | some (_, .ok r _) => some r
  | _ => none

/-- The WorkflowError the executeWorkflow catch builds from a thrown value:
message, code only when the thrown value is an AIServiceError, and
step := context.currentStep. -/
def catchError (e : JsError) (cur : Nat) : WfError :=
  { message := e.message, code := e.codeOf, step := some cur }

/-- The actions of one run of executeWorkflow (src/unnamed/part_003 lines
158-237) in which the total timeout does not fire: the running write, the
loop's actions, then the terminal write and terminal event of the
try/catch. -/
def driverTrace (now : Nat) (steps : List (StepDef × StepBeh)) :
    List (Nat × DriverAction) :=
  (0, .update { status := some .running }) ::
  (stepActions now steps 0 ++
    (match stepsThrown steps with
     | none =>
       [(curStepEnd steps 0, .update
           { status := some .completed,
             result := some (finalResult steps), completedAt := some (some now) }),
        (curStepEnd steps 0, .emit
           { type := .workflowComplete, result := finalResult steps })]
     | some e =>
       [(curStepEnd steps 0, .update
           { status := some .failed,
             error := some (some (catchError e (curStepEnd steps 0))),
             completedAt := some (some now) }),
        (curStepEnd steps 0, .emit
           { type := .workflowFailed,
             error := some (catchError e (curStepEnd steps 0)) })]))

/-- context.currentStep at the moment the total timeout fires, after p loop
actions: the tag of the last performed action (0 before any action ran). -/
def fireStep (acts : List (Nat × DriverAction)) (p : Nat) : Nat :=
  if p = 0 then 0 else ((acts[p - 1]?).map Prod.fst).getD 0

/-- The message of the timeout rejection (src/unnamed/part_003 line 187). -/
def timeoutMessage (timeoutMs : Nat) : String :=
  "Workflow tiempo de espera agotado después de " ++ toString timeoutMs ++ "ms"

/-- The actions of a run of executeWorkflow in which the total timeout fires
after p actions of the step loop.  Promise.race settles with the rejection —
a plain Error, not an AIServiceError — so the catch persists the failed
status and emits workflow:failed; the loser of the race is not cancelled, so
the remaining loop actions still run afterwards, while the try's completion
branch never runs.  The interleaving modelled is the one in which the catch
runs to completion while the loop is suspended in its pending await. -/
def timeoutTrace (now timeoutMs : Nat) (steps : List (StepDef × StepBeh)) (p : Nat) :
    List (Nat × DriverAction) :=
  let acts := stepActions now steps 0
  let cur := fireStep acts p
  let werr := catchError (.plain (timeoutMessage timeoutMs)) cur
  (0, .update { status := some .running }) ::
  (acts.take p ++
    ((cur, .update
      { status := some .failed, error := some (some werr),
        completedAt := some (some now) }) ::
     (cur, .emit { type := .workflowFailed, error := some werr }) ::
     acts.drop p))

/-- The events emitted by a list of driver actions, in order. -/
def eventsOf (acts : List (Nat × DriverAction)) : List Event :=
  acts.filterMap (fun a =>
    match a.2 with
    | .emit e => some e
    | _ => none)

/-- Apply one driver action to the store (emissions leave it unchanged). -/
def applyAction (s : Store) (id : String) (now : Nat) : DriverAction → Store
  | .update p => memUpdate s id p now
  | .stepUpdate i p => updateStepStatus s id i p now
  | .emit _ => s

/-- Run a list of driver actions against the store. -/
def runActions (s : Store) (id : String) (now : Nat) :
    List (Nat × DriverAction) → Store
  | [] => s
  | a :: rest => runActions (applyAction s id now a.2) id now rest

/-- Is the action a store write? -/
def isWrite : DriverAction → Bool
  | .emit _ => false
  | .update _ => true
  | .stepUpdate _ _ => true

/-- Does the action set the workflow record's status to a terminal value? -/
def setsTerminal : DriverAction → Bool
  | .update p =>
    match p.status with
    | some .completed => true
    | some .failed => true
    | _ => false
  | _ => false

/-- The store writes occurring strictly after the first terminal-status
write of an action list. -/
def writesAfterTerminal (acts : List (Nat × DriverAction)) : List DriverAction :=
  (((acts.map Prod.snd).dropWhile (fun a => !setsTerminal a)).drop 1).filter isWrite

/- ===================== Concrete runs for the counterexamples ===================== -/

/-- A two-step workflow whose steps both succeed. -/
def cexSteps : List (StepDef × StepBeh) :=
  [(⟨"write", "text"⟩, .ok "a red cube" "T"), (⟨"draw", "image"⟩, .ok "u" "I")]

/-- Its definition as submit sees it. -/
def cexDefn : WorkflowDefinitionR :=
  ⟨"demo", [⟨"write", "text"⟩, ⟨"draw", "image"⟩]⟩

/-- The store right after submit persisted the new record. -/
def cexStore : Store := memCreate [] (submitStatus cexDefn "wf-1" 0 "hi")

/-- A minimal terminal record for the list witnesses. -/
def wfRec (idv : String) (created : Nat) : WorkflowStatusR :=
  { id := idv, name := "w", status := .completed, currentStep := 0, totalSteps := 0,
    steps := [], input := "", createdAt := created, updatedAt := created }

/-- A two-record store for the list witnesses. -/
def c10Store : Store := [("a", wfRec "a" 1), ("b", wfRec "b" 2)]

/- =====================================================================
   THEOREMS
   ===================================================================== -/

/-- Claim C6, counterexample: a message containing "connection refused" and no
other bucket keyword is classified SERVICE_ERROR by the code, not
NETWORK_ERROR as the claim states (the source's keyword is "econnrefused",
which "connection refused" does not contain). -/
theorem c6_connection_refused_cex :
    (classifyError "connection refused" "svc").code = .SERVICE_ERROR ∧
    AIErrorCode.SERVICE_ERROR ≠ AIErrorCode.NETWORK_ERROR := by
  exact ⟨by decide, by decide⟩

/-- Claim C6 (amended): classifyError assigns exactly the code of the first
matching keyword bucket, matched case-insensitively in the given order, where
the network bucket's third keyword is "econnrefused" (not "connection
refused"); in particular "Invalid API key" is classified AUTH_FAILED, and
"connection refused" alone falls through to SERVICE_ERROR. -/
theorem c6_classify_matches_buckets (message serviceName : String) :
    (classifyError message serviceName).code = bucketClassify message ∧
    (classifyError "Invalid API key" serviceName).code = .AUTH_FAILED ∧
    (classifyError "connection refused" serviceName).code = .SERVICE_ERROR := by
  refine ⟨?_, rfl, rfl⟩
  simp only [classifyError, bucketClassify, keywordBuckets, firstBucket,
    List.any_cons, List.any_nil, Bool.or_false, Bool.or_assoc,
    apply_ite AIServiceError.code]

/-- Claim C2, counterexample: with maxRetries = 3 and providers named
X, X, Y all failing retryably, the run exhausts the attempt budget after
only TWO real invocations (X then Y) because the skipped duplicate consumed
the middle attempt: the JS continue still runs the for-loop's increment.
Under the claim's reading (skips consume no attempt) a third invocation
would have occurred. -/
theorem c2_skip_consumes_attempt_cex :
    (execute "text" dupServices 3 0).invoked.length = 2 ∧
    (execute "text" dupServices 3 0).skips = 1 ∧
    (execute "text" dupServices 3 0).invoked.map Invocation.service = ["X", "Y"] ∧
    (execute "text" dupServices 3 0).outcome =
      .error ⟨"Todos los servicios de text fallaron después de 3 intentos",
        "X, Y", .SERVICE_ERROR⟩ ∧
    (2 : Nat) ≠ 3 := by
  exact ⟨rfl, rfl, rfl, rfl, by decide⟩

/-- Every iteration of the executeAux loop consumes one unit of fuel,
whether it invokes a provider or skips one. -/
theorem executeAux_iter_bound (categoryName : String) (services : List Svc)
    (maxRetries : Nat) :
    ∀ fuel idx attempted errors invoked skips,
      (executeAux categoryName services maxRetries fuel idx attempted errors
          invoked skips).invoked.length +
        (executeAux categoryName services maxRetries fuel idx attempted errors
          invoked skips).skips ≤ fuel + invoked.length + skips := by
  intro fuel
  induction fuel with
  | zero =>
    intro idx attempted errors invoked skips
    simp [executeAux]
  | succ n ih =>
    intro idx attempted errors invoked skips
    rw [executeAux]
    cases h : services[idx]? with
    | none => simp
    | some service =>
      simp only
      split
      · have := ih ((idx + 1) % services.length) attempted errors invoked (skips + 1)
        omega
      · cases hb : service.beh (maxRetries - (n + 1)) with
        | ok v => simp; omega
        | err m =>
          simp only
          split
          · have := ih ((idx + 1) % services.length)
              (insertName attempted service.name)
              (errors ++ [classifyError m service.name])
              (invoked ++ [⟨service.name, maxRetries - (n + 1), .err m⟩]) skips
            simp only [List.length_append, List.length_cons, List.length_nil] at this ⊢
            omega
          · simp; omega

/-- Claim C2 (amended): a skipped iteration (already-attempted provider while
not every provider has been tried) advances the rotation cursor AND consumes
an attempt from the maxRetries budget — the source's continue sits in a JS
for-loop whose update expression still runs — so the attempt counter counts
loop iterations (real invocations plus skips), and the number of real
invocations can be strictly smaller than maxRetries when skips occur. -/
theorem c2_iterations_bounded_by_maxRetries (categoryName : String)
    (services : List Svc) (maxRetries startIdx : Nat) :
    (execute categoryName services maxRetries startIdx).invoked.length +
        (execute categoryName services maxRetries startIdx).skips ≤ maxRetries ∧
    (execute "text" dupServices 3 0).invoked.length +
        (execute "text" dupServices 3 0).skips = 3 := by
  constructor
  · have := executeAux_iter_bound categoryName services maxRetries maxRetries
      startIdx [] [] [] 0
    simpa [execute] using this
  · rfl

/-- Claim C5, counterexample: the failover-executor path for an empty
category rejects with code INVALID_REQUEST (the constructor guard), not
SERVICE_ERROR as the claim states. -/
theorem c5_empty_executor_invalid_request_cex :
    mkExecutorCheck "TextServiceExecutor" [] =
      .error ⟨"TextServiceExecutor requiere al menos un servicio", "config",
        .INVALID_REQUEST⟩ ∧
    AIErrorCode.INVALID_REQUEST ≠ AIErrorCode.SERVICE_ERROR := by
  exact ⟨rfl, by decide⟩

/-- Claim C5 (amended): executing against a category with an empty provider
list fails before any provider operation is invoked, with SERVICE_ERROR on
the registry.getNext path but INVALID_REQUEST on the failover-executor path
(the BaseServiceExecutor constructor guard). -/
theorem c5_empty_category_errors (reg : ServiceRegistry) (category ctorName : String)
    (h : getAll reg category = []) :
    getNext reg category =
      .error ⟨"No hay servicios registrados para la categoría: " ++ category,
        "registry", .SERVICE_ERROR⟩ ∧
    mkExecutorCheck ctorName (getAll reg category) =
      .error ⟨ctorName ++ " requiere al menos un servicio", "config",
        .INVALID_REQUEST⟩ := by
  constructor
  · unfold getNext
    unfold getAll at h
    cases hm : mapGet reg.services category with
    | none => rfl
    | some l =>
      rw [hm] at h
      simp only [Option.getD_some] at h
      subst h
      rfl
  · rw [h]
    rfl

/-- Claim C5's witness: an empty registry. -/
theorem c5_empty_category_errors_witness :
    getAll ⟨[], []⟩ "text" = [] ∧
    (getNext ⟨[], []⟩ "text" =
      .error ⟨"No hay servicios registrados para la categoría: text",
        "registry", .SERVICE_ERROR⟩ ∧
    mkExecutorCheck "TextServiceExecutor" (getAll ⟨[], []⟩ "text") =
      .error ⟨"TextServiceExecutor requiere al menos un servicio", "config",
        .INVALID_REQUEST⟩) :=
  ⟨rfl, c5_empty_category_errors ⟨[], []⟩ "text" "TextServiceExecutor" rfl⟩

/-- The invocation log accumulator is a prefix of the final invocation log. -/
theorem executeAux_invoked_prefix (categoryName : String) (services : List Svc)
    (maxRetries : Nat) :
    ∀ fuel idx attempted errors invoked skips,
      invoked <+: (executeAux categoryName services maxRetries fuel idx attempted
        errors invoked skips).invoked := by
  intro fuel
  induction fuel with
  | zero =>
    intro idx attempted errors invoked skips
    simp [executeAux]
  | succ n ih =>
    intro idx attempted errors invoked skips
    rw [executeAux]
    cases services[idx]? with
    | none => simp
    | some service =>
      simp only
      split
      · exact ih ((idx + 1) % services.length) attempted errors invoked (skips + 1)
      · cases service.beh (maxRetries - (n + 1)) with
        | ok v => exact List.prefix_append _ _
        | err m =>
          simp only
          split
          · exact (List.prefix_append _ _).trans
              (ih ((idx + 1) % services.length) (insertName attempted service.name)
                (errors ++ [classifyError m service.name])
                (invoked ++ [⟨service.name, maxRetries - (n + 1), .err m⟩]) skips)
          · exact List.prefix_append _ _

/-- When the invocation at position (invoked.length + j) of the final log
fails with a non-retryable classified code, the loop throws that classified
error and that invocation is the last one. -/
theorem executeAux_fatal_stops (categoryName : String) (services : List Svc)
    (maxRetries : Nat) :
    ∀ fuel idx attempted errors invoked skips j inv m,
      (executeAux categoryName services maxRetries fuel idx attempted errors
          invoked skips).invoked[invoked.length + j]? = some inv →
      inv.res = .err m →
      isRetryable (classifyError m inv.service).code = false →
      (executeAux categoryName services maxRetries fuel idx attempted errors
          invoked skips).outcome = .error (classifyError m inv.service) ∧
      invoked.length + j + 1 =
        (executeAux categoryName services maxRetries fuel idx attempted errors
          invoked skips).invoked.length := by
  intro fuel
  induction fuel with
  | zero =>
    intro idx attempted errors invoked skips j inv m hj _ _
    rw [executeAux] at hj
    simp only at hj
    rw [List.getElem?_eq_none (Nat.le_add_right _ _)] at hj
    exact absurd hj (by simp)
  | succ n ih =>
    intro idx attempted errors invoked skips j inv m hj hres hfatal
    rw [executeAux] at hj ⊢
    cases hsvc : services[idx]? with
    | none =>
      rw [hsvc] at hj
      dsimp only at hj
      rw [List.getElem?_eq_none (Nat.le_add_right _ _)] at hj
      exact absurd hj (by simp)
    | some service =>
      rw [hsvc] at hj
      dsimp only at hj ⊢
      by_cases hskip :
          attempted.contains service.name ∧ attempted.length < services.length
      · rw [if_pos hskip] at hj ⊢
        exact ih ((idx + 1) % services.length) attempted errors invoked (skips + 1)
          j inv m hj hres hfatal
      · rw [if_neg hskip] at hj ⊢
        cases hb : service.beh (maxRetries - (n + 1)) with
        | ok v =>
          rw [hb] at hj
          dsimp only at hj
          cases j with
          | zero =>
            simp only [Nat.add_zero, List.getElem?_concat_length,
              Option.some.injEq] at hj
            rw [← hj] at hres
            exact absurd hres (by simp)
          | succ j' =>
            rw [List.getElem?_eq_none
              (by simp only [List.length_append, List.length_cons,
                List.length_nil]; omega)] at hj
            exact absurd hj (by simp)
        | err m0 =>
          rw [hb] at hj
          dsimp only at hj ⊢
          by_cases hret : isRetryable (classifyError m0 service.name).code = true
          · rw [if_pos hret] at hj ⊢
            cases j with
            | zero =>
              have hpre := executeAux_invoked_prefix categoryName services maxRetries
                n ((idx + 1) % services.length) (insertName attempted service.name)
                (errors ++ [classifyError m0 service.name])
                (invoked ++ [⟨service.name, maxRetries - (n + 1), .err m0⟩]) skips
              obtain ⟨t, ht⟩ := hpre
              rw [← ht] at hj
              simp only [Nat.add_zero] at hj
              rw [List.getElem?_append_left (by simp),
                List.getElem?_concat_length] at hj
              simp only [Option.some.injEq] at hj
              rw [← hj] at hres hfatal
              dsimp only at hres hfatal
              cases hres
              rw [hfatal] at hret
              exact absurd hret (by simp)
            | succ j' =>
              have := ih ((idx + 1) % services.length)
                (insertName attempted service.name)
                (errors ++ [classifyError m0 service.name])
                (invoked ++ [⟨service.name, maxRetries - (n + 1), .err m0⟩]) skips
                j' inv m (by rw [← hj]; congr 1; simp; omega) hres hfatal
              refine ⟨this.1, ?_⟩
              have h2 := this.2
              simp only [List.length_append, List.length_cons, List.length_nil] at h2
              omega
          · rw [if_neg hret] at hj ⊢
            simp only at hj ⊢
            cases j with
            | zero =>
              simp only [Nat.add_zero, List.getElem?_concat_length,
                Option.some.injEq] at hj
              rw [← hj] at hres ⊢
              dsimp only at hres ⊢
              cases hres
              simp
            | succ j' =>
              rw [List.getElem?_eq_none
                (by simp only [List.length_append, List.length_cons,
                  List.length_nil]; omega)] at hj
              exact absurd hj (by simp)

/-- Claim C7: a provider failure classified AUTH_FAILED or INVALID_REQUEST
makes execute throw that classified error with its code unchanged; the
failing invocation is the last one, so no further provider is invoked and
the same provider is never retried within the call. -/
theorem c7_fatal_error_stops_execution (categoryName : String)
    (services : List Svc) (maxRetries startIdx j : Nat) (inv : Invocation)
    (m : String)
    (hj : (execute categoryName services maxRetries startIdx).invoked[j]? = some inv)
    (hres : inv.res = .err m)
    (hcode : (classifyError m inv.service).code = .AUTH_FAILED ∨
      (classifyError m inv.service).code = .INVALID_REQUEST) :
    (execute categoryName services maxRetries startIdx).outcome =
      .error (classifyError m inv.service) ∧
    j + 1 = (execute categoryName services maxRetries startIdx).invoked.length := by
  have hfatal : isRetryable (classifyError m inv.service).code = false := by
    rcases hcode with h | h <;> rw [h] <;> decide
  have := executeAux_fatal_stops categoryName services maxRetries maxRetries
    startIdx [] [] [] 0 j inv m (by simpa [execute] using hj) hres hfatal
  simpa [execute] using this

/-- Claim C7's witness: a text category with providers A (rejecting with
"Invalid API key", classified AUTH_FAILED) and B; the single invocation of A
is the last, B is never tried, and the AUTH_FAILED error surfaces. -/
theorem c7_fatal_error_stops_execution_witness :
    (execute "text" [⟨"A", fun _ => .err "Invalid API key"⟩, boomSvc "B"] 3 0).invoked[0]? =
        some ⟨"A", 0, .err "Invalid API key"⟩ ∧
    (Invocation.res ⟨"A", 0, .err "Invalid API key"⟩ = .err "Invalid API key") ∧
    ((classifyError "Invalid API key" "A").code = .AUTH_FAILED ∨
      (classifyError "Invalid API key" "A").code = .INVALID_REQUEST) ∧
    ((execute "text" [⟨"A", fun _ => .err "Invalid API key"⟩, boomSvc "B"] 3 0).outcome =
        .error (classifyError "Invalid API key" "A") ∧
      0 + 1 = (execute "text" [⟨"A", fun _ => .err "Invalid API key"⟩,
        boomSvc "B"] 3 0).invoked.length) :=
  ⟨rfl, rfl, Or.inl rfl,
    c7_fatal_error_stops_execution "text"
      [⟨"A", fun _ => .err "Invalid API key"⟩, boomSvc "B"] 3 0 0
      ⟨"A", 0, .err "Invalid API key"⟩ "Invalid API key" rfl rfl (Or.inl rfl)⟩

/-- Map.set followed by Map.get at the same key yields the stored record. -/
theorem storeGet_storeSet_self (s : Store) (id : String) (w : WorkflowStatusR) :
    storeGet (storeSet s id w) id = some w := by
  induction s with
  | nil => simp [storeSet, storeGet]
  | cons kv rest ih =>
    obtain ⟨k, v⟩ := kv
    by_cases h : k = id
    · simp [storeSet, storeGet, h]
    · simp [storeSet, storeGet, h, ih]

/-- initSteps preserves the step count. -/
theorem initSteps_length (l : List StepDef) (i : Nat) :
    (initSteps l i).length = l.length := by
  induction l generalizing i with
  | nil => rfl
  | cons d rest ih => simp [initSteps, ih]

/-- The j-th initialized step carries index i + j. -/
theorem initSteps_index (l : List StepDef) (i j : Nat)
    (h : j < (initSteps l i).length) :
    ((initSteps l i).get ⟨j, h⟩).index = i + j := by
  induction l generalizing i j with
  | nil => simp [initSteps] at h
  | cons d rest ih =>
    cases j with
    | zero => rfl
    | succ j' =>
      have h' : j' < (initSteps rest (i + 1)).length := by
        simpa [initSteps] using h
      have := ih (i + 1) j' h'
      rw [show ((initSteps (d :: rest) i).get ⟨j' + 1, h⟩) =
        ((initSteps rest (i + 1)).get ⟨j', h'⟩) from rfl]
      omega

/-- Claim C8: right after submit persisted the record — or additionally
applied the queued-branch status update — getStatus(id) returns a record
whose id is the returned id, whose totalSteps is the definition's step
count, and whose steps entry j carries index j. -/
theorem c8_submit_getStatus_roundtrip (defn : WorkflowDefinitionR)
    (id : String) (now now2 : Nat) (input : String) (store : Store) (j : Nat)
    (hj : j < (submitStatus defn id now input).steps.length) :
    storeGet (memCreate store (submitStatus defn id now input)) id =
      some (submitStatus defn id now input) ∧
    (submitStatus defn id now input).id = id ∧
    (submitStatus defn id now input).totalSteps = defn.steps.length ∧
    ((submitStatus defn id now input).steps.get ⟨j, hj⟩).index = j ∧
    (∃ st2,
      storeGet (memUpdate (memCreate store (submitStatus defn id now input)) id
          { status := some .queued } now2) id = some st2 ∧
      st2.status = .queued ∧ st2.id = id ∧ st2.totalSteps = defn.steps.length ∧
      ∀ hj2 : j < st2.steps.length, (st2.steps.get ⟨j, hj2⟩).index = j) := by
  have hget := storeGet_storeSet_self store id (submitStatus defn id now input)
  refine ⟨hget, rfl, rfl, by simpa using initSteps_index defn.steps 0 j hj, ?_⟩
  refine ⟨applyPatch (submitStatus defn id now input)
    { status := some .queued } now2, ?_, rfl, rfl, rfl, ?_⟩
  · unfold memUpdate
    rw [show memCreate store (submitStatus defn id now input) =
      storeSet store id (submitStatus defn id now input) from rfl, hget]
    exact storeGet_storeSet_self _ _ _
  · intro hj2
    simpa using initSteps_index defn.steps 0 j hj2

/-- Claim C8's witness: a two-step definition on the empty store, at j = 1. -/
theorem c8_submit_getStatus_roundtrip_witness :
    (1 < (submitStatus cexDefn "wf-1" 0 "hi").steps.length) ∧
    (storeGet (memCreate [] (submitStatus cexDefn "wf-1" 0 "hi")) "wf-1" =
      some (submitStatus cexDefn "wf-1" 0 "hi") ∧
    (submitStatus cexDefn "wf-1" 0 "hi").id = "wf-1" ∧
    (submitStatus cexDefn "wf-1" 0 "hi").totalSteps = cexDefn.steps.length ∧
    ((submitStatus cexDefn "wf-1" 0 "hi").steps.get ⟨1, by decide⟩).index = 1 ∧
    (∃ st2,
      storeGet (memUpdate (memCreate [] (submitStatus cexDefn "wf-1" 0 "hi")) "wf-1"
          { status := some .queued } 5) "wf-1" = some st2 ∧
      st2.status = .queued ∧ st2.id = "wf-1" ∧ st2.totalSteps = cexDefn.steps.length ∧
      ∀ hj2 : 1 < st2.steps.length, (st2.steps.get ⟨1, hj2⟩).index = 1)) :=
  ⟨by decide,
    c8_submit_getStatus_roundtrip cexDefn "wf-1" 0 5 "hi" [] 1 (by decide)⟩

/-- Claim C9: previousTextToImageInput and previousTextToAudioInput throw
their missing-previous-result errors not only when the previous result is
absent but also when it is the empty string (the JS !text guard treats ""
as falsy). -/
theorem c9_empty_previous_result_throws (c : Ctx)
    (h : previousResult c = none ∨ previousResult c = some "") :
    previousTextToImageInput c =
      .error "No hay resultado de texto previo disponible para generación de imagen" ∧
    previousTextToAudioInput c =
      .error "No hay resultado de texto previo disponible para generación de audio" := by
  have hf : jsFalsyStr (previousResult c) = true := by
    rcases h with h | h <;> rw [h] <;> rfl
  constructor
  · unfold previousTextToImageInput
    rw [if_pos hf]
  · unfold previousTextToAudioInput
    rw [if_pos hf]

/-- Claim C9's witness: a context whose previous step stored "". -/
theorem c9_empty_previous_result_throws_witness :
    (previousResult ⟨[(0, "")], 1⟩ = none ∨ previousResult ⟨[(0, "")], 1⟩ = some "") ∧
    (previousTextToImageInput ⟨[(0, "")], 1⟩ =
      .error "No hay resultado de texto previo disponible para generación de imagen" ∧
    previousTextToAudioInput ⟨[(0, "")], 1⟩ =
      .error "No hay resultado de texto previo disponible para generación de audio") :=
  ⟨Or.inr rfl, c9_empty_previous_result_throws ⟨[(0, "")], 1⟩ (Or.inr rfl)⟩

/-- Claim C10: with a non-positive limit, the state manager's list (both
backends' sort-and-truncate logic) returns all matching records sorted by
createdAt descending — the limit-truthiness guard skips the slice — rather
than an empty list. -/
theorem c10_nonpositive_limit_returns_all (s : Store) (filt : Option WfState)
    (l : Int) (ws : List WorkflowStatusR) (hl : l ≤ 0) :
    memList s ⟨filt, some l⟩ = memList s ⟨filt, none⟩ ∧
    (memList s ⟨filt, some l⟩).Perm (matchingRecords s filt) ∧
    List.Sorted createdDesc (memList s ⟨filt, some l⟩) ∧
    redisListPost ws ⟨filt, some l⟩ = redisListPost ws ⟨filt, none⟩ := by
  have hcond : ¬(l ≠ 0 ∧ 0 < l) := by omega
  cases filt with
  | none =>
    refine ⟨by simp [memList, hcond], ?_, ?_, by simp [redisListPost, hcond]⟩
    · simpa [memList, hcond, matchingRecords] using
        List.perm_insertionSort createdDesc (s.map Prod.snd)
    · simpa [memList, hcond] using
        List.sorted_insertionSort createdDesc (s.map Prod.snd)
  | some st =>
    refine ⟨by simp [memList, hcond], ?_, ?_, by simp [redisListPost, hcond]⟩
    · simpa [memList, hcond, matchingRecords] using
        List.perm_insertionSort createdDesc
          ((s.map Prod.snd).filter (fun w => w.status == st))
    · simpa [memList, hcond] using
        List.sorted_insertionSort createdDesc
          ((s.map Prod.snd).filter (fun w => w.status == st))

/-- Claim C10's witness: limit 0 on a two-record store. -/
theorem c10_nonpositive_limit_returns_all_witness :
    ((0 : Int) ≤ 0) ∧
    (memList c10Store ⟨none, some 0⟩ = memList c10Store ⟨none, none⟩ ∧
    (memList c10Store ⟨none, some 0⟩).Perm (matchingRecords c10Store none) ∧
    List.Sorted createdDesc (memList c10Store ⟨none, some 0⟩) ∧
    redisListPost [] ⟨none, some 0⟩ = redisListPost [] ⟨none, none⟩) :=
  ⟨by decide, c10_nonpositive_limit_returns_all c10Store none 0 [] (by decide)⟩

/-- The step loop emits only step-scoped events: never a workflow terminal
event. -/
theorem stepActions_events_not_terminal (now : Nat) :
    ∀ (steps : List (StepDef × StepBeh)) (i : Nat) (e : Event),
      e ∈ eventsOf (stepActions now steps i) →
      e.type ≠ .workflowComplete ∧ e.type ≠ .workflowFailed := by
  intro steps
  induction steps with
  | nil =>
    intro i e he
    simp [stepActions, eventsOf] at he
  | cons sb rest ih =>
    obtain ⟨d, b⟩ := sb
    intro i e he
    cases b with
    | skip =>
      simp only [stepActions, eventsOf, List.filterMap_cons] at he
      rcases List.mem_cons.mp he with rfl | he2
      · exact ⟨by simp, by simp⟩
      · exact ih (i + 1) e (by simpa [eventsOf] using he2)
    | ok r s =>
      simp only [stepActions, eventsOf, List.filterMap_cons] at he
      rcases List.mem_cons.mp he with rfl | he2
      · exact ⟨by simp, by simp⟩
      rcases List.mem_cons.mp he2 with rfl | he3
      · exact ⟨by simp, by simp⟩
      · exact ih (i + 1) e (by simpa [eventsOf] using he3)
    | err te =>
      simp only [stepActions, eventsOf, List.filterMap_cons, List.filterMap_nil] at he
      rcases List.mem_cons.mp he with rfl | he2
      · exact ⟨by simp, by simp⟩
      rcases List.mem_cons.mp he2 with rfl | he3
      · exact ⟨by simp, by simp⟩
      · exact absurd he3 (List.not_mem_nil e)

/-- Claim C1, counterexample: in the run where the total timeout fires after
three actions of the step loop of the two-step workflow, workflow:failed is
the second emitted event and three further events (the uncancelled loop's
step:complete and the whole second step) follow it for the same id. -/
theorem c1_events_after_failed_cex :
    ((eventsOf (timeoutTrace 0 300000 cexSteps 3)).map Event.type =
      [.stepStarted, .workflowFailed, .stepComplete, .stepStarted, .stepComplete]) ∧
    ((eventsOf (timeoutTrace 0 300000 cexSteps 3))[1]?.map Event.type =
      some .workflowFailed) ∧
    ((eventsOf (timeoutTrace 0 300000 cexSteps 3)).drop 2 ≠ []) := by
  exact ⟨rfl, rfl, by decide⟩

/-- Claim C1 (amended): in every run in which the total timeout does not
fire, no event follows the terminal workflow:complete / workflow:failed —
every event other than the last is step-scoped; when the total timeout does
fire, the uncancelled step loop may emit further step events after
workflow:failed. -/
theorem c1_no_events_after_terminal_no_timeout (now : Nat)
    (steps : List (StepDef × StepBeh)) (i j : Nat) (e : Event) (hij : i < j)
    (hj : j < (eventsOf (driverTrace now steps)).length)
    (hi : (eventsOf (driverTrace now steps))[i]? = some e) :
    e.type ≠ .workflowComplete ∧ e.type ≠ .workflowFailed := by
  cases hth : stepsThrown steps with
  | none =>
    have hsplit : eventsOf (driverTrace now steps) =
        eventsOf (stepActions now steps 0) ++
          [{ type := .workflowComplete, result := finalResult steps }] := by
      simp [driverTrace, eventsOf, hth, List.filterMap_append]
    rw [hsplit] at hi hj
    rw [List.length_append, List.length_cons, List.length_nil] at hj
    have hilt : i < (eventsOf (stepActions now steps 0)).length := by omega
    rw [List.getElem?_append_left hilt] at hi
    exact stepActions_events_not_terminal now steps 0 e (List.getElem?_mem hi)
  | some te =>
    have hsplit : eventsOf (driverTrace now steps) =
        eventsOf (stepActions now steps 0) ++
          [{ type := .workflowFailed,
             error := some (catchError te (curStepEnd steps 0)) }] := by
      simp [driverTrace, eventsOf, hth, List.filterMap_append]
    rw [hsplit] at hi hj
    rw [List.length_append, List.length_cons, List.length_nil] at hj
    have hilt : i < (eventsOf (stepActions now steps 0)).length := by omega
    rw [List.getElem?_append_left hilt] at hi
    exact stepActions_events_not_terminal now steps 0 e (List.getElem?_mem hi)

/-- Claim C1's witness: the untimed two-step run, whose first event (before
the last, index 4) is step:started and not terminal. -/
theorem c1_no_events_after_terminal_witness :
    (0 < 4) ∧ (4 < (eventsOf (driverTrace 0 cexSteps)).length) ∧
    ((eventsOf (driverTrace 0 cexSteps))[0]? =
      some { type := .stepStarted, step := some 0, name := some "write" }) ∧
    (({ type := .stepStarted, step := some 0, name := some "write" } : Event).type ≠
        .workflowComplete ∧
      ({ type := .stepStarted, step := some 0, name := some "write" } : Event).type ≠
        .workflowFailed) :=
  ⟨by decide, by decide, rfl,
    c1_no_events_after_terminal_no_timeout 0 cexSteps 0 4 _ (by decide) (by decide) rfl⟩

/-- Claim C3, counterexample: after the total timeout fires mid-step and
the run finishes, the persisted record is failed with step 0 but its error
code is undefined (none), not TIMEOUT: the synthetic rejection is a plain
Error, so the instanceof AIServiceError extraction yields undefined. -/
theorem c3_timeout_code_undefined_cex :
    ((storeGet (runActions cexStore "wf-1" 0 (timeoutTrace 0 300000 cexSteps 3))
        "wf-1").map (fun w => (w.status, w.error)) =
      some (WfState.failed, some ⟨timeoutMessage 300000, none, some 0, none⟩)) ∧
    ((none : Option AIErrorCode) ≠ some .TIMEOUT) := by
  exact ⟨rfl, by decide⟩

/-- Claim C3 (amended): when the total timeout fires after p actions of the
step loop, the driver persists status failed with an error whose message is
the synthetic timeout message, whose code is undefined (the rejection is a
plain Error, not an AIServiceError) and whose step is the current step
index, and emits workflow:failed carrying that same error. -/
theorem c3_timeout_failure_shape (now timeoutMs : Nat)
    (steps : List (StepDef × StepBeh)) (p : Nat)
    (hp : p ≤ (stepActions now steps 0).length) :
    (timeoutTrace now timeoutMs steps p).drop (p + 1) =
      (fireStep (stepActions now steps 0) p,
        DriverAction.update
          { status := some .failed,
            error := some (some ⟨timeoutMessage timeoutMs, none,
              some (fireStep (stepActions now steps 0) p), none⟩),
            completedAt := some (some now) }) ::
      (fireStep (stepActions now steps 0) p,
        DriverAction.emit
          { type := .workflowFailed,
            error := some ⟨timeoutMessage timeoutMs, none,
              some (fireStep (stepActions now steps 0) p), none⟩ }) ::
      (stepActions now steps 0).drop p := by
  have hlen : ((stepActions now steps 0).take p).length = p := by
    rw [List.length_take]
    omega
  show ((0, DriverAction.update { status := some .running }) :: _).drop (p + 1) = _
  rw [List.drop_succ_cons, List.drop_left' hlen]
  simp only [catchError, JsError.message, JsError.codeOf]

/-- Claim C3's witness: the timeout firing after three loop actions of the
two-step run. -/
theorem c3_timeout_failure_shape_witness :
    (3 ≤ (stepActions 0 cexSteps 0).length) ∧
    ((timeoutTrace 0 300000 cexSteps 3).drop (3 + 1) =
      (fireStep (stepActions 0 cexSteps 0) 3,
        DriverAction.update
          { status := some .failed,
            error := some (some ⟨timeoutMessage 300000, none,
              some (fireStep (stepActions 0 cexSteps 0) 3), none⟩),
            completedAt := some (some 0) }) ::
      (fireStep (stepActions 0 cexSteps 0) 3,
        DriverAction.emit
          { type := .workflowFailed,
            error := some ⟨timeoutMessage 300000, none,
              some (fireStep (stepActions 0 cexSteps 0) 3), none⟩ }) ::
      (stepActions 0 cexSteps 0).drop 3) :=
  ⟨by decide, c3_timeout_failure_shape 0 300000 cexSteps 3 (by decide)⟩

/-- Claim C4, counterexample: in the timeout run, right after the terminal
failed write the record has status failed and step 0 still running; the
uncancelled loop then transitions step 0 to completed — a non-TTL field of a
terminal record changed, so terminal statuses are not sticky. -/
theorem c4_sticky_violation_cex :
    ((storeGet (runActions cexStore "wf-1" 0
          ((timeoutTrace 0 300000 cexSteps 3).take 5)) "wf-1").map
        (fun w => (w.status, w.steps[0]?.map StepStatusR.status)) =
      some (WfState.failed, some StepState.running)) ∧
    ((storeGet (runActions cexStore "wf-1" 0
          (timeoutTrace 0 300000 cexSteps 3)) "wf-1").map
        (fun w => (w.status, w.steps[0]?.map StepStatusR.status)) =
      some (WfState.failed, some StepState.completed)) ∧
    (StepState.running ≠ StepState.completed) := by
  exact ⟨rfl, rfl, by decide⟩

/-- dropWhile over an append whose left part wholly satisfies the predicate
continues in the right part. -/
theorem dropWhile_append_of_forall {α : Type} (p : α → Bool) (l₁ l₂ : List α)
    (h : ∀ a ∈ l₁, p a = true) :
    (l₁ ++ l₂).dropWhile p = l₂.dropWhile p := by
  induction l₁ with
  | nil => rfl
  | cons a t ih =>
    rw [List.cons_append, List.dropWhile_cons, if_pos (h a (List.mem_cons_self a t))]
    exact ih (fun x hx => h x (List.mem_cons_of_mem a hx))

/-- No action of the step loop sets the workflow record's status to a
terminal value. -/
theorem stepActions_not_terminal (now : Nat) :
    ∀ (steps : List (StepDef × StepBeh)) (i : Nat) (a : Nat × DriverAction),
      a ∈ stepActions now steps i → setsTerminal a.2 = false := by
  intro steps
  induction steps with
  | nil =>
    intro i a ha
    simp [stepActions] at ha
  | cons sb rest ih =>
    obtain ⟨d, b⟩ := sb
    intro i a ha
    cases b with
    | skip =>
      simp only [stepActions] at ha
      rcases List.mem_cons.mp ha with rfl | ha2
      · rfl
      rcases List.mem_cons.mp ha2 with rfl | ha3
      · rfl
      exact ih (i + 1) a ha3
    | ok r s =>
      simp only [stepActions] at ha
      rcases List.mem_cons.mp ha with rfl | ha2
      · rfl
      rcases List.mem_cons.mp ha2 with rfl | ha3
      · rfl
      rcases List.mem_cons.mp ha3 with rfl | ha4
      · rfl
      rcases List.mem_cons.mp ha4 with rfl | ha5
      · rfl
      rcases List.mem_cons.mp ha5 with rfl | ha6
      · rfl
      exact ih (i + 1) a ha6
    | err te =>
      simp only [stepActions] at ha
      rcases List.mem_cons.mp ha with rfl | ha2
      · rfl
      rcases List.mem_cons.mp ha2 with rfl | ha3
      · rfl
      rcases List.mem_cons.mp ha3 with rfl | ha4
      · rfl
      rcases List.mem_cons.mp ha4 with rfl | ha5
      · rfl
      rcases List.mem_cons.mp ha5 with rfl | ha6
      · rfl
      exact absurd ha6 (List.not_mem_nil a)

/-- Claim C4 (amended): the state manager's update enforces no stickiness
guard; in every run in which the total timeout does not fire, the driver's
terminal-status write is its last store write, so terminal records stay
unchanged; in the total-timeout interleaving the uncancelled step loop does
write step statuses of the already-failed record (the counterexample). -/
theorem c4_terminal_write_is_last_without_timeout (now : Nat)
    (steps : List (StepDef × StepBeh)) :
    writesAfterTerminal (driverTrace now steps) = [] := by
  have hall : ∀ a ∈ (DriverAction.update { status := some WfState.running } ::
      (stepActions now steps 0).map Prod.snd), (!setsTerminal a) = true := by
    intro a ha
    rcases List.mem_cons.mp ha with rfl | ha2
    · rfl
    · obtain ⟨pa, hpa, rfl⟩ := List.mem_map.mp ha2
      rw [stepActions_not_terminal now steps 0 pa hpa]
      rfl
  unfold writesAfterTerminal driverTrace
  cases hth : stepsThrown steps with
  | none =>
    simp only [List.map_cons, List.map_append, List.map_nil]
    rw [← List.cons_append, dropWhile_append_of_forall _ _ _ hall]
    rfl
  | some te =>
    simp only [List.map_cons, List.map_append, List.map_nil]
    rw [← List.cons_append, dropWhile_append_of_forall _ _ _ hall]
    rfl

end BunAI
